import Mathlib

/-!
# Verification of the airguitar reorder buffer, RTSP handler and player actor

Shallow embedding of the relevant parts of the `airguitar` AirPlay-1 receiver:

* `src/player/frame_buffer.rs` — the seq-indexed reorder buffer (`FrameBuffer`),
  its `add_packet`, `flush` and `pop_front` operations;
* `src/base64.rs` — the pad-stripping base64 decoder and the unpadded encoder;
* `src/rtsp/handler.rs` — the per-connection request dispatcher (`execute`),
  the default response headers (`add_default_headers`) and the
  Apple-Challenge computation (`calculate_challenge`);
* `src/player/mod.rs` — the player actor's `Teardown` and `PutPacket` arms.

RTP sequence numbers (`rtp_rs::SeqNo`, an external crate whose source is not
vendored here) are modelled from the spec: 16-bit wrapping integers compared
with serial-number arithmetic in the RFC 1982 style, i.e. `a` is strictly
below `b` when the forward wrap distance from `a` to `b` is non-zero and
below half the window (2^15); at exactly half the window the two values are
unordered, as in the RFC.  `SeqNo::next` is `+1 mod 2^16`.

The `BTreeMap<SeqNo, _>` of the buffer is used by the source only through
equality-keyed `insert` and `remove`, so it is embedded as a plain
key-to-value function `SeqNo → Option α`.
-/

/-- The 16-bit RTP sequence numbers (`rtp_rs::SeqNo`), wrapping modulo 2^16. -/
abbrev SeqNo : Type := Fin 65536

/-- Embed a natural number as a sequence number (wrapping). -/
def seqOfNat (n : Nat) : SeqNo := ⟨n % 65536, Nat.mod_lt _ (by omega)⟩

/-- Successor `SeqNo::next`: wraps back to 0 after 0xffff. -/
def SeqNo.next (a : SeqNo) : SeqNo := a + seqOfNat 1

/-- Forward wrap-around distance from `a` to `b`: the number of `next` steps
taking `a` to `b`.  Always below 2^16. -/
def seqDist (a b : SeqNo) : Nat := (b.1 + 65536 - a.1) % 65536

/-- Modelled from the spec: serial-number order, RFC 1982 style, on 16-bit
sequence numbers.  `a` is strictly less than `b` when `b` is between 1 and
2^15 − 1 forward steps away from `a`. -/
def seqLt (a b : SeqNo) : Prop := 0 < seqDist a b ∧ seqDist a b < 32768

/-- Non-strict serial-number order. -/
def seqLe (a b : SeqNo) : Prop := a = b ∨ seqLt a b

instance (a b : SeqNo) : Decidable (seqLt a b) := by unfold seqLt; infer_instance

instance (a b : SeqNo) : Decidable (seqLe a b) := by unfold seqLe; infer_instance

/-- The `Range<SeqNo>` as returned by `FrameBuffer::add_packet` (a start/end pair,
`std::ops::Range`). -/
structure MissingRange where
  start : SeqNo
  stop : SeqNo
deriving DecidableEq

/-- Membership `Range::contains` for `Range<SeqNo>`: `start <= x && x < end` under the
serial-number order. -/
def rangeContains (r : MissingRange) (x : SeqNo) : Prop :=
  seqLe r.start x ∧ seqLt x r.stop

instance (r : MissingRange) (x : SeqNo) : Decidable (rangeContains r x) := by
  unfold rangeContains; infer_instance

/-- Emptiness `Range::is_empty`: `!(start < end)` under the serial-number order. -/
def rangeIsEmpty (r : MissingRange) : Prop := ¬ seqLt r.start r.stop

instance (r : MissingRange) : Decidable (rangeIsEmpty r) := by
  unfold rangeIsEmpty; infer_instance

/-- Pointwise insertion into the key-value map backing the buffer
(`BTreeMap::insert`). -/
def mapInsert {α : Type} (m : SeqNo → Option α) (k : SeqNo) (v : α) :
    SeqNo → Option α :=
  fun x => if x = k then some v else m x

/-- Pointwise removal (`BTreeMap::remove`). -/
def mapRemove {α : Type} (m : SeqNo → Option α) (k : SeqNo) : SeqNo → Option α :=
  fun x => if x = k then none else m x

/-- The reorder buffer of `src/player/frame_buffer.rs`: a seq-indexed map of
decoded PCM frames plus the two markers. -/
structure FrameBuffer (α : Type) where
  data : SeqNo → Option α
  read_marker : SeqNo
  write_marker : SeqNo

namespace FrameBuffer

/-- Constructor `FrameBuffer::new(initial_seq)`. -/
def new (α : Type) (initial_seq : SeqNo) : FrameBuffer α :=
  { data := fun _ => none
    read_marker := initial_seq
    write_marker := initial_seq }

/-- Operation `FrameBuffer::add_packet`: remember the old write marker, move it to
`seq`, store the frame, and return `Range { start: old.next(), end: seq }`. -/
def add_packet {α : Type} (st : FrameBuffer α) (seq : SeqNo) (packet : α) :
    MissingRange × FrameBuffer α :=
  let old_write_marker := st.write_marker
  ({ start := old_write_marker.next, stop := seq },
   { data := mapInsert st.data seq packet
     read_marker := st.read_marker
     write_marker := seq })

/-- One iteration of the `flush` while-loop: remove the entry at the read
marker and advance it. -/
def flushGo {α : Type} : FrameBuffer α → Nat → FrameBuffer α
  | st, 0 => st
  | st, n + 1 =>
      flushGo
        { data := mapRemove st.data st.read_marker
          read_marker := st.read_marker.next
          write_marker := st.write_marker } n

/-- Operation `FrameBuffer::flush(seq)`: the while-loop `while read_marker != seq`
removes the entry under the read marker and steps it forward; since `next`
cycles through all 2^16 values, the loop runs exactly
`seqDist read_marker seq` times. -/
def flush {α : Type} (st : FrameBuffer α) (seq : SeqNo) : FrameBuffer α :=
  flushGo st (seqDist st.read_marker seq)

/-- Operation `FrameBuffer::pop_front`: remove and return the entry under the read
marker; advance the marker only when an entry was present. -/
def pop_front {α : Type} (st : FrameBuffer α) : Option α × FrameBuffer α :=
  match st.data st.read_marker with
  | none => (none, st)
  | some frame =>
      (some frame,
       { data := mapRemove st.data st.read_marker
         read_marker := st.read_marker.next
         write_marker := st.write_marker })

/-- Iterates `n` successive `pop_front` calls, collecting each call's result.  This is
the drain pattern of `FrameBufferSource::next`, which substitutes a zero
sample for every `none`. -/
def iteratePop {α : Type} : FrameBuffer α → Nat → List (Option α) × FrameBuffer α
  | st, 0 => ([], st)
  | st, n + 1 =>
      let p := pop_front st
      let q := iteratePop p.2 n
      (p.1 :: q.1, q.2)

end FrameBuffer

/-! ## Invariant notions for the reorder buffer -/

/-- The invariant exactly as the spec states it: `read_marker ≤ write_marker`
in the serial-number order and every stored key between the two markers. -/
def specInvariant {α : Type} (st : FrameBuffer α) : Prop :=
  seqLe st.read_marker st.write_marker ∧
  ∀ k, (st.data k).isSome = true →
    seqLe st.read_marker k ∧ seqLe k st.write_marker

/-- Distance form of the buffer invariant: the write marker is fewer than
2^15 forward steps past the read marker and every stored key lies on the
forward walk between them. -/
def distInvariant {α : Type} (st : FrameBuffer α) : Prop :=
  seqDist st.read_marker st.write_marker < 32768 ∧
  ∀ k, (st.data k).isSome = true →
    seqDist st.read_marker k ≤ seqDist st.read_marker st.write_marker

/-! ## Base64 (`src/base64.rs`, backed by `base64ct::Base64Unpadded`) -/

/-- The standard base64 alphabet used by `base64ct`. -/
def b64Chars : List Char :=
  "ABCDEFGHIJKLMNOPQRSTUVWXYZabcdefghijklmnopqrstuvwxyz0123456789+/".toList

/-- Character for a 6-bit group. -/
def charOfSextet (n : Nat) : Char := b64Chars.getD n 'A'

/-- The 6-bit group for a character; `none` when the character is not in the
alphabet. -/
def sextetOfChar (c : Char) : Option Nat :=
  let i := b64Chars.indexOf c
  if i < 64 then some i else none

/-- Bytes to 6-bit groups, processing three bytes into four sextets, with
the standard short tails for one or two leftover bytes. -/
def toSextets : List Nat → List Nat
  | [] => []
  | [a] => [a / 4, a % 4 * 16]
  | [a, b] => [a / 4, a % 4 * 16 + b / 16, b % 16 * 4]
  | a :: b :: c :: rest =>
      (a / 4) :: (a % 4 * 16 + b / 16) :: (b % 16 * 4 + c / 64) :: (c % 64) ::
        toSextets rest

/-- Decodes 6-bit groups back to bytes.  Mirrors `base64ct`'s strict unpadded
decoding: a length of 1 mod 4 is rejected, and non-zero trailing bits in a
short final block are rejected (`InvalidEncoding`). -/
def fromSextets : List Nat → Option (List Nat)
  | [] => some []
  | [_] => none
  | [a, b] => if b % 16 = 0 then some [a * 4 + b / 16] else none
  | [a, b, c] =>
      if c % 4 = 0 then some [a * 4 + b / 16, b % 16 * 16 + c / 4] else none
  | a :: b :: c :: d :: rest =>
      (fromSextets rest).map
        (fun tail =>
          (a * 4 + b / 16) :: (b % 16 * 16 + c / 4) :: (c % 4 * 64 + d) :: tail)

/-- Character list to 6-bit groups, failing on the first character outside
the alphabet. -/
def sextetsOfChars : List Char → Option (List Nat)
  | [] => some []
  | c :: cs =>
      match sextetOfChar c with
      | none => none
      | some s => (sextetsOfChars cs).map (fun rest => s :: rest)

/-- Decoder `decode_base64`: truncate the input at the first `=` (Apple clients pad
inconsistently, so everything from the first `=` on is dropped), then decode
as unpadded base64. -/
def decode_base64 (input : List Char) : Option (List Nat) :=
  match sextetsOfChars (input.takeWhile (fun c => c != '=')) with
  | none => none
  | some sx => fromSextets sx

/-- Encoder `encode_base64`: unpadded base64 of a byte string. -/
def encode_base64 (input : List Nat) : List Char :=
  (toSextets input).map charOfSextet

/-- Challenge computation `Handler::calculate_challenge`: base64-decode the challenge, append the
local IP octets and the 6-byte hardware address, sign, and base64-encode the
signature without padding.  The RSA-PKCS#1-v1.5 signing primitive is external
crypto (out of scope per the spec) and is passed in as an opaque signing
function over byte strings. -/
def calculate_challenge (sign : List Nat → List Nat)
    (localIp hwAddr : List Nat) (challenge : List Char) : Option (List Char) :=
  match decode_base64 challenge with
  | none => none
  | some chall => some (encode_base64 (sign (chall ++ localIp ++ hwAddr)))

/-! ## Claim C5 -/

/-- Concrete signer for the C5 witness (the signature bytes themselves are
opaque to the handler). -/
def c5sign : List Nat → List Nat := fun _ => [1, 2, 3]

/-! ## RTSP handler (`src/rtsp/handler.rs`) -/

/-- The request methods dispatched by `Handler::execute`.  `flushExt` is the
`FLUSH`/`flush` extension the code recognises; `otherExtension` is any other
extension method (the `todo!()` arm). -/
inductive RtspMethod where
  | options
  | setup
  | getParameter
  | setParameter
  | announce
  | record
  | teardown
  | flushExt
  | otherExtension
  | describe
  | pause
  | play
  | playNotify
  | redirect
deriving DecidableEq

/-- An incoming request as the handler observes it.  Header values are kept
verbatim; the outcomes of the external parsers the handler calls
(`rtsp_types` transport parsing, `str::from_utf8`, `sdp_types`) are modelled
from the spec as precomputed fields. -/
structure RtspRequest where
  method : RtspMethod
  cseq : Option String
  apple_challenge : Option String
  content_type : Option String
  /-- Modelled from the spec: `control_port`/`timing_port` extracted from the
  `Transport` header when present and parseable. -/
  transport_ports : Option (Nat × Nat)
  /-- Modelled from the spec: whether the body is valid UTF-8. -/
  body_utf8 : Bool
  /-- The body's lines (when valid UTF-8). -/
  body_lines : List String
  /-- Modelled from the spec: whether `sdp_types::Session::parse` succeeds. -/
  sdp_ok : Bool
  /-- Modelled from the spec: the `fmtp` attribute of the first media block;
  `none` when the media section or the attribute is missing. -/
  sdp_fmtp : Option String
  rtp_info_hdr : Option String

/-- The headers of an outgoing response that the claims talk about. -/
structure RtspResponse where
  status : Nat
  cseq : Option String := none
  server : Option String := none
  apple_response : Option String := none
  connection_close : Bool := false
  has_public : Bool := false
  has_audio_latency : Bool := false
  has_transport : Bool := false
  has_session : Bool := false
deriving DecidableEq

/-- Connection- and actor-level inputs of one `execute` call: the signing
primitive with the local address and hardware address (for the challenge),
the modelled `f64::from_str` success predicate, and the player actor's reply
outcomes for SETUP and ANNOUNCE. -/
structure HandlerCtx where
  sign : List Nat → List Nat
  localIp : List Nat
  hwAddr : List Nat
  parse_f64_ok : String → Bool
  setup_ok : Bool
  announce_ok : Bool

/-- Default headers `Handler::add_default_headers`: always set `Server`; copy `CSeq` only
when the request has one; on an `Apple-Challenge` request compute the
response header, propagating a decode failure as an error (`none`). -/
def addDefaultHeaders (ctx : HandlerCtx) (req : RtspRequest)
    (r : RtspResponse) : Option RtspResponse :=
  let r1 := { r with server := some "AirTunes/105.1" }
  let r2 := match req.cseq with
    | some c => { r1 with cseq := some c }
    | none => r1
  match req.apple_challenge with
  | none => some r2
  | some ch =>
      match calculate_challenge ctx.sign ctx.localIp ctx.hwAddr ch.toList with
      | none => none
      | some resp => some { r2 with apple_response := some (String.mk resp) }

/-- Rust's `str::split_once` at a separator character. -/
def splitOnceChar (sep : Char) : List Char → Option (List Char × List Char)
  | [] => none
  | c :: rest =>
      if c = sep then some ([], rest)
      else (splitOnceChar sep rest).map (fun p => (c :: p.1, p.2))

/-- ASCII whitespace trim (`str::trim` on the inputs at hand). -/
def trimAscii (cs : List Char) : List Char :=
  let isSp := fun c : Char =>
    (c == ' ') || (c == '\t') || (c == '\n') || (c == '\r')
  ((cs.dropWhile isSp).reverse.dropWhile isSp).reverse

/-- The SET_PARAMETER body loop: for each `key: value` line whose key is
exactly `volume`, the trimmed value must parse as an `f64` (the `?`
operator aborts `execute` with an error on the first failure); other lines
are skipped. -/
def setParameterLinesOk (pf : String → Bool) : List String → Bool
  | [] => true
  | l :: rest =>
      match splitOnceChar ':' l.toList with
      | some (k, v) =>
          if k = "volume".toList then
            pf (String.mk (trimAscii v)) && setParameterLinesOk pf rest
          else setParameterLinesOk pf rest
      | none => setParameterLinesOk pf rest

/-- Modelled from the spec: success of Rust `f64::from_str` on a SET_PARAMETER
volume value.  A simple decimal grammar (optional sign, digits, optional
fractional part) — no exponents or infinities, which is enough to classify
the values exercised here: `"abc"` is invalid, `"-12.5"` is valid. -/
def validF64 (s : String) : Bool :=
  let cs := match s.toList with
    | '+' :: rest => rest
    | '-' :: rest => rest
    | cs => cs
  match splitOnceChar '.' cs with
  | none => !cs.isEmpty && cs.all (fun c => c.isDigit)
  | some (a, b) =>
      (!a.isEmpty || !b.isEmpty) && a.all (fun c => c.isDigit) &&
        b.all (fun c => c.isDigit)

/-- Outcome of one `Handler::execute` call. -/
inductive ExecResult where
  | response (r : RtspResponse)
  | silent
  | failure
  | panics
deriving DecidableEq

/-- Dispatch `Handler::execute`, restricted to the observable response and control
flow.  `failure` is a propagated `Err` (in `Handler::run` the `?` on
`execute` ends the task, so no response is written and the connection is
dropped); `silent` is `Ok(())` with no response written; `panics` is the
`todo!()` arm for unknown extension methods. -/
def executeR (ctx : HandlerCtx) (req : RtspRequest) : ExecResult :=
  match req.method with
  | .options =>
      match addDefaultHeaders ctx req { status := 200 } with
      | none => .failure
      | some r => .response { r with has_public := true }
  | .setup =>
      match req.transport_ports with
      | some _ =>
          let base : RtspResponse :=
            if ctx.setup_ok then
              { status := 200, has_session := true, has_transport := true }
            else { status := 451 }
          match addDefaultHeaders ctx req base with
          | none => .failure
          | some r => .response r
      | none => .silent
  | .getParameter =>
      match addDefaultHeaders ctx req { status := 200 } with
      | none => .failure
      | some r => if req.body_utf8 then .response r else .failure
  | .setParameter =>
      match req.content_type with
      | some ct =>
          if ct = "text/parameters" then
            if req.body_utf8 = false then .failure
            else if setParameterLinesOk ctx.parse_f64_ok req.body_lines then
              match addDefaultHeaders ctx req { status := 200 } with
              | none => .failure
              | some r => .response r
            else .failure
          else .response { status := 451 }
      | none => .response { status := 451 }
  | .announce =>
      if req.sdp_ok = false then .failure
      else
        match req.sdp_fmtp with
        | none => .failure
        | some _ =>
            let base : RtspResponse :=
              if ctx.announce_ok then { status := 200 } else { status := 453 }
            match addDefaultHeaders ctx req base with
            | none => .failure
            | some r => .response r
  | .record =>
      match addDefaultHeaders ctx req
          { status := 200, has_audio_latency := true } with
      | none => .failure
      | some r => .response r
  | .teardown =>
      match addDefaultHeaders ctx req
          { status := 200, connection_close := true } with
      | none => .failure
      | some r => .response r
  | .flushExt =>
      match addDefaultHeaders ctx req { status := 200 } with
      | none => .failure
      | some r => .response r
  | .otherExtension => .panics
  | .describe | .pause | .play | .playNotify | .redirect =>
      .response { status := 405 }

/-- Which `execute` branches route their response through
`add_default_headers` (every branch except the 405 arm and the
SET_PARAMETER arm for an unsupported content type). -/
def usesDefaultHeaders (req : RtspRequest) : Bool :=
  match req.method with
  | .describe | .pause | .play | .playNotify | .redirect => false
  | .setParameter => req.content_type == some "text/parameters"
  | _ => true

/-- How far `Handler::run` gets on a list of requests: the responses written,
and how the loop ends (`finished` keeps the connection open for more
requests; `errored` is a propagated handler error — the task returns `Err`
and the connection drops with no response for the failing request). -/
inductive HandlerExit where
  | finished
  | errored
  | panicked
deriving DecidableEq

def runHandler (ctx : HandlerCtx) :
    List RtspRequest → List RtspResponse × HandlerExit
  | [] => ([], .finished)
  | req :: rest =>
      match executeR ctx req with
      | .response r =>
          let t := runHandler ctx rest
          (r :: t.1, t.2)
      | .silent => runHandler ctx rest
      | .failure => ([], .errored)
      | .panics => ([], .panicked)

/-! ## Player actor (`src/player/mod.rs`) -/

/-- The mutable session state owned by `Player::run`.  The shutdown bus, the
block cipher, the ALAC decoder and the control-sender channel are modelled by
their presence; the volume type stays abstract. -/
structure PlayerState (V : Type) where
  airplay_volume : V
  notify_shutdown : Option Unit
  encryption : Option (List Nat × List Nat)
  cipher : Option Unit
  alac : Option Unit
  frame_buffer : Option (FrameBuffer (List Int))
  control_tx : Option Unit

/-- Arm `Command::Teardown`: drop the session shutdown bus and clear encryption,
cipher and codec.  Nothing else in the state is assigned. -/
def teardownStep {V : Type} (st : PlayerState V) : PlayerState V :=
  { st with
    notify_shutdown := none
    encryption := none
    cipher := none
    alac := none }

/-- Outcome of the `Command::PutPacket` arm: either an updated state together
with the missing range forwarded to the control sender (when non-empty and a
sender exists), or a panic of the player task. -/
inductive PutPacketResult (V : Type) where
  | ok (st : PlayerState V) (sent : Option MissingRange)
  | panics

/-- Arm `Command::PutPacket`: with encryption and cipher present, CBC-decrypt the
payload (`.unwrap()` — a failure panics), then with the ALAC decoder present
decode (`.unwrap()` — a failure panics), shift each 32-bit sample
arithmetically right by 16 bits to a 16-bit sample, and append to the frame
buffer, forwarding a non-empty missing range to the control sender; with the
decoder absent, or with encryption or cipher absent, the code executes
`todo!()` and panics.  AES and ALAC are external crypto/codec and enter as
opaque functions. -/
def putPacketStep {V : Type} (decrypt : List Nat → Option (List Nat))
    (alacDecode : List Nat → Option (List Int)) (st : PlayerState V)
    (seq : SeqNo) (packet : List Nat) : PutPacketResult V :=
  match st.encryption, st.cipher with
  | some _, some _ =>
      match decrypt packet with
      | none => .panics
      | some plain =>
          match st.alac with
          | some _ =>
              match alacDecode plain with
              | none => .panics
              | some samples =>
                  match st.frame_buffer with
                  | some fb =>
                      let r :=
                        fb.add_packet seq (samples.map (fun i => i.fdiv 65536))
                      .ok { st with frame_buffer := some r.2 }
                        (if ¬ rangeIsEmpty r.1 ∧ st.control_tx = some () then
                          some r.1
                        else none)
                  | none => .ok st none
          | none => .panics
  | _, _ => .panics

/-- Handler context for the C6 example requests. -/
def c6ctx : HandlerCtx :=
  { sign := fun bs => bs
    localIp := [192, 0, 2, 1]
    hwAddr := [60, 34, 251, 165, 163, 173]
    parse_f64_ok := validF64
    setup_ok := true
    announce_ok := true }

/-- A DESCRIBE request carrying `CSeq: 1`. -/
def c6req : RtspRequest :=
  { method := .describe
    cseq := some "1"
    apple_challenge := none
    content_type := none
    transport_ports := none
    body_utf8 := true
    body_lines := []
    sdp_ok := true
    sdp_fmtp := none
    rtp_info_hdr := none }

/-- An OPTIONS request carrying `CSeq: 7`. -/
def c6wreq : RtspRequest :=
  { method := .options
    cseq := some "7"
    apple_challenge := none
    content_type := none
    transport_ports := none
    body_utf8 := true
    body_lines := []
    sdp_ok := true
    sdp_fmtp := none
    rtp_info_hdr := none }

/-! ## Claim C8 -/

/-- Handler context for the C8 failing input: the modelled `f64::from_str`
success predicate, identity signer, spec scenario addresses. -/
def c8ctx : HandlerCtx :=
  { sign := fun bs => bs
    localIp := [192, 0, 2, 1]
    hwAddr := [60, 34, 251, 165, 163, 173]
    parse_f64_ok := validF64
    setup_ok := true
    announce_ok := true }

/-- The failing input of C8: a SET_PARAMETER request with
`Content-Type: text/parameters` and body `volume: abc`. -/
def c8req : RtspRequest :=
  { method := .setParameter
    cseq := some "4"
    apple_challenge := none
    content_type := some "text/parameters"
    transport_ports := none
    body_utf8 := true
    body_lines := ["volume: abc"]
    sdp_ok := true
    sdp_fmtp := none
    rtp_info_hdr := none }

/-! ## Claim C9 -/

/-- A mid-session player state: bus live, encryption, cipher and codec
installed, a reorder buffer and a control sender present. -/
def c9state : PlayerState Int :=
  { airplay_volume := -12
    notify_shutdown := some ()
    encryption := some ([1], [2])
    cipher := some ()
    alac := some ()
    frame_buffer := some (FrameBuffer.new (List Int) 0)
    control_tx := some () }

/-! ## Claim C7 -/

/-- Opaque decrypt stub for the C7 witness (never reached at its input). -/
def c7decrypt : List Nat → Option (List Nat) := fun bs => some bs

/-- Opaque decode stub for the C7 witness (never reached at its input). -/
def c7decode : List Nat → Option (List Int) := fun _ => some []

/-- A player state before any ANNOUNCE: no key, cipher or codec. -/
def c7state : PlayerState Int :=
  { airplay_volume := 0
    notify_shutdown := none
    encryption := none
    cipher := none
    alac := none
    frame_buffer := none
    control_tx := none }

/-! ## Claim C5 (theorem) -/

/-- Handler context for the C5 witness: the stub signer, IPv4 `192.0.2.1`,
hardware address `3C 22 FB A5 A3 AD` (first six bytes of MD5("Airguitar")). -/
def c5ctx : HandlerCtx :=
  { sign := c5sign
    localIp := [192, 0, 2, 1]
    hwAddr := [60, 34, 251, 165, 163, 173]
    parse_f64_ok := validF64
    setup_ok := true
    announce_ok := true }

/-- An OPTIONS request carrying `CSeq: 9` and `Apple-Challenge: AAECAw`. -/
def c5wreq : RtspRequest :=
  { method := .options
    cseq := some "9"
    apple_challenge := some "AAECAw"
    content_type := none
    transport_ports := none
    body_utf8 := true
    body_lines := []
    sdp_ok := true
    sdp_fmtp := none
    rtp_info_hdr := none }

/-- A DESCRIBE request carrying `Apple-Challenge: AAECAw`. -/
def c5creq : RtspRequest :=
  { method := .describe
    cseq := some "2"
    apple_challenge := some "AAECAw"
    content_type := none
    transport_ports := none
    body_utf8 := true
    body_lines := []
    sdp_ok := true
    sdp_fmtp := none
    rtp_info_hdr := none }

theorem SeqNo.val_add (a b : SeqNo) : (a + b : SeqNo).1 = (a.1 + b.1) % 65536 :=
  Fin.val_add a b

theorem seqDist_lt (a b : SeqNo) : seqDist a b < 65536 := Nat.mod_lt _ (by omega)

theorem seqDist_self (a : SeqNo) : seqDist a a = 0 := by
  have := a.2; unfold seqDist; omega

theorem SeqNo.next_val (a : SeqNo) : a.next.1 = (a.1 + 1) % 65536 := by
  have := a.2
  show (a.1 + 1 % 65536) % 65536 = (a.1 + 1) % 65536
  omega

theorem seqOfNat_val (n : Nat) : (seqOfNat n).1 = n % 65536 := rfl

theorem seq_add_ofNat_val (a : SeqNo) (n : Nat) :
    (a + seqOfNat n).1 = (a.1 + n) % 65536 := by
  have := a.2
  show (a.1 + n % 65536) % 65536 = (a.1 + n) % 65536
  omega

/-- Stepping to `next` decrements the forward distance to any other point. -/
theorem seqDist_next (a k : SeqNo) (h : k ≠ a) :
    seqDist a k = seqDist a.next k + 1 := by
  have ha := a.2; have hk := k.2
  have hne : k.1 ≠ a.1 := fun hv => h (Fin.ext hv)
  unfold seqDist
  rw [SeqNo.next_val]
  omega

/-- Walking `seqDist a b` forward steps from `a` lands on `b`. -/
theorem seq_add_dist (a b : SeqNo) : a + seqOfNat (seqDist a b) = b := by
  apply Fin.ext
  rw [seq_add_ofNat_val]
  have ha := a.2; have hb := b.2
  unfold seqDist
  omega

theorem seq_add_ofNat_left_cancel (a : SeqNo) (n : Nat) (h0 : 0 < n)
    (h1 : n < 65536) : a + seqOfNat n ≠ a := by
  intro h
  have := congrArg Fin.val h
  rw [seq_add_ofNat_val] at this
  have := a.2
  omega

example : seqDist 0 5 = 5 := by decide

example : seqDist 65535 1 = 2 := by decide

example : seqLt (65535 : SeqNo) 1 := by decide

example : ¬ seqLe (0 : SeqNo) 65535 := by decide

example : ((FrameBuffer.new Nat 0).add_packet 2 7).2.data 2 = some 7 := by decide

example :
    (FrameBuffer.iteratePop ((FrameBuffer.new Nat 0).add_packet 2 7).2 3).1 =
      [none, none, none] := by decide

/-! ## Generic lemmas about the buffer operations -/

theorem mapInsert_self {α : Type} (m : SeqNo → Option α) (k : SeqNo) (v : α) :
    mapInsert m k v k = some v := by simp [mapInsert]

theorem mapInsert_other {α : Type} (m : SeqNo → Option α) (k x : SeqNo) (v : α)
    (h : x ≠ k) : mapInsert m k v x = m x := by simp [mapInsert, h]

theorem mapRemove_self {α : Type} (m : SeqNo → Option α) (k : SeqNo) :
    mapRemove m k k = none := by simp [mapRemove]

theorem mapRemove_other {α : Type} (m : SeqNo → Option α) (k x : SeqNo)
    (h : x ≠ k) : mapRemove m k x = m x := by simp [mapRemove, h]

theorem seq_add_ofNat_zero (a : SeqNo) : a + seqOfNat 0 = a := by
  apply Fin.ext
  rw [seq_add_ofNat_val]
  have := a.2
  omega

theorem seq_add_succ (a : SeqNo) (n : Nat) :
    a + seqOfNat (n + 1) = a.next + seqOfNat n := by
  apply Fin.ext
  rw [seq_add_ofNat_val, seq_add_ofNat_val, SeqNo.next_val]
  have := a.2
  omega

theorem seq_next_add_ne (a : SeqNo) (n : Nat) (h : n + 1 < 65536) :
    a.next + seqOfNat n ≠ a := by
  intro hEq
  have := congrArg Fin.val hEq
  rw [seq_add_ofNat_val, SeqNo.next_val] at this
  have := a.2
  omega

namespace FrameBuffer

theorem pop_front_none {α : Type} (st : FrameBuffer α)
    (h : st.data st.read_marker = none) : st.pop_front = (none, st) := by
  simp [pop_front, h]

theorem pop_front_some {α : Type} (st : FrameBuffer α) (f : α)
    (h : st.data st.read_marker = some f) :
    st.pop_front =
      (some f,
       { data := mapRemove st.data st.read_marker
         read_marker := st.read_marker.next
         write_marker := st.write_marker }) := by
  simp [pop_front, h]

/-- With nothing stored at the read marker, any number of pops returns only
`none` and leaves the buffer untouched. -/
theorem iteratePop_stuck {α : Type} (st : FrameBuffer α)
    (h : st.data st.read_marker = none) :
    ∀ n : Nat, st.iteratePop n = (List.replicate n none, st) := by
  intro n
  induction n with
  | zero => rfl
  | succ n ih => simp [iteratePop, pop_front_none st h, ih, List.replicate]

/-- Characterization of the `flush` loop after `n` iterations: the read
marker advances `n` steps, the write marker is untouched, and exactly the
keys fewer than `n` forward steps from the old read marker are cleared. -/
theorem flushGo_spec {α : Type} :
    ∀ (n : Nat) (st : FrameBuffer α), n ≤ 65536 →
      (flushGo st n).read_marker = st.read_marker + seqOfNat n ∧
      (flushGo st n).write_marker = st.write_marker ∧
      ∀ k, (flushGo st n).data k =
        if seqDist st.read_marker k < n then none else st.data k := by
  intro n
  induction n with
  | zero =>
      intro st _
      refine ⟨(seq_add_ofNat_zero st.read_marker).symm, rfl, ?_⟩
      intro k
      simp [flushGo]
  | succ n ih =>
      intro st hn
      set st1 : FrameBuffer α :=
        { data := mapRemove st.data st.read_marker
          read_marker := st.read_marker.next
          write_marker := st.write_marker } with hst1
      have hGo : flushGo st (n + 1) = flushGo st1 n := rfl
      obtain ⟨hrm, hwm, hdata⟩ := ih st1 (by omega)
      refine ⟨?_, ?_, ?_⟩
      · rw [hGo, hrm, hst1, seq_add_succ]
      · rw [hGo, hwm]
      · intro k
        rw [hGo, hdata k]
        by_cases hk : k = st.read_marker
        · subst hk
          have h0 : seqDist st.read_marker st.read_marker = 0 := seqDist_self _
          have hlast : seqDist st.read_marker.next st.read_marker = 65535 := by
            have := st.read_marker.2
            unfold seqDist
            rw [SeqNo.next_val]
            omega
          rw [hlast, h0]
          have : ¬ 65535 < n := by omega
          simp [this, hst1, mapRemove_self]
        · have hshift := seqDist_next st.read_marker k hk
          have : st1.data k = st.data k := by
            rw [hst1]; exact mapRemove_other _ _ _ hk
          rw [this]
          have hrm1 : st1.read_marker = st.read_marker.next := rfl
          rw [hrm1]
          by_cases hlt : seqDist st.read_marker k < n + 1
          · have : seqDist st.read_marker.next k < n := by omega
            simp [hlt, this]
          · have : ¬ seqDist st.read_marker.next k < n := by omega
            simp [hlt, this]

/-- Closed form of `flush`: read marker lands on `seq`, write marker is kept,
and exactly the keys on the forward walk from the old read marker (strictly
before `seq`) are cleared. -/
theorem flush_spec {α : Type} (st : FrameBuffer α) (seq : SeqNo) :
    (st.flush seq).read_marker = seq ∧
    (st.flush seq).write_marker = st.write_marker ∧
    ∀ k, (st.flush seq).data k =
      if seqDist st.read_marker k < seqDist st.read_marker seq then none
      else st.data k := by
  have h := flushGo_spec (α := α) (seqDist st.read_marker seq) st
    (le_of_lt (seqDist_lt _ _))
  refine ⟨?_, h.2.1, h.2.2⟩
  rw [show st.flush seq = flushGo st (seqDist st.read_marker seq) from rfl,
    h.1, seq_add_dist]

/-- Whatever a run of pops returns at position `j` was stored `j` steps past
the read marker when the run began. -/
theorem iteratePop_index {α : Type} :
    ∀ (n : Nat) (st : FrameBuffer α) (j : Nat) (f : α),
      (st.iteratePop n).1.getD j none = some f →
      st.data (st.read_marker + seqOfNat j) = some f := by
  intro n
  induction n with
  | zero =>
      intro st j f h
      simp [iteratePop, List.getD] at h
  | succ n ih =>
      intro st j f h
      match hpop : st.data st.read_marker with
      | none =>
          rw [iteratePop_stuck st hpop (n + 1)] at h
          have : (List.replicate (n + 1) (none : Option α)).getD j none =
              none := by
            cases Nat.lt_or_ge j (n + 1) with
            | inl hj => simp [List.getD, List.getElem?_replicate, hj]
            | inr hj =>
                have : (List.replicate (n + 1) (none : Option α)).length ≤ j := by
                  simpa using hj
                simp [List.getD, List.getElem?_eq_none this]
          rw [this] at h
          exact absurd h (by simp)
      | some f0 =>
          have hstep : st.iteratePop (n + 1) =
              (some f0 :: (st.pop_front.2.iteratePop n).1,
               (st.pop_front.2.iteratePop n).2) := by
            simp [iteratePop, pop_front_some st f0 hpop]
          rw [hstep] at h
          match j with
          | 0 =>
              simp [List.getD] at h
              rw [seq_add_ofNat_zero, hpop, h]
          | j + 1 =>
              have hj : (st.pop_front.2.iteratePop n).1.getD j none = some f := by
                simpa [List.getD] using h
              have hrec := ih st.pop_front.2 j f hj
              rw [pop_front_some st f0 hpop] at hrec
              simp only at hrec
              by_cases hwrap : j + 1 < 65536
              · have hne := seq_next_add_ne st.read_marker j hwrap
                rw [mapRemove_other _ _ _ hne] at hrec
                rw [seq_add_succ]
                exact hrec
              · have hj65535 : j % 65536 = 65535 ∨ j % 65536 < 65535 := by omega
                rcases hj65535 with hj1 | hj1
                · exfalso
                  have : st.read_marker.next + seqOfNat j = st.read_marker := by
                    apply Fin.ext
                    rw [seq_add_ofNat_val, SeqNo.next_val]
                    have := st.read_marker.2
                    omega
                  rw [this, mapRemove_self] at hrec
                  exact absurd hrec (by simp)
                · have hne : st.read_marker.next + seqOfNat j ≠ st.read_marker := by
                    intro hEq
                    have := congrArg Fin.val hEq
                    rw [seq_add_ofNat_val, SeqNo.next_val] at this
                    have := st.read_marker.2
                    omega
                  rw [mapRemove_other _ _ _ hne] at hrec
                  rw [seq_add_succ]
                  exact hrec

end FrameBuffer

theorem seqDist_eq_zero_iff (a b : SeqNo) : seqDist a b = 0 ↔ a = b := by
  constructor
  · intro h
    have := seq_add_dist a b
    rw [h] at this
    rw [← this, seq_add_ofNat_zero]
  · intro h; subst h; exact seqDist_self a

/-- Distances compose along the forward walk: going `a → x → b`. -/
theorem seqDist_chain (a x b : SeqNo) :
    seqDist x b = (seqDist a b + 65536 - seqDist a x) % 65536 := by
  have ha := a.2; have hx := x.2; have hb := b.2
  unfold seqDist
  omega

theorem seqDist_sub_of_le (a x b : SeqNo) (h : seqDist a x ≤ seqDist a b) :
    seqDist x b = seqDist a b - seqDist a x := by
  have h1 := seqDist_chain a x b
  have h2 := seqDist_lt a b
  have h3 := seqDist_lt a x
  omega

theorem seqDist_next_left (a x : SeqNo) :
    seqDist a.next x = (seqDist a x + 65535) % 65536 := by
  have ha := a.2; have hx := x.2
  unfold seqDist
  rw [SeqNo.next_val]
  omega

theorem seq_next_eq_iff_dist (a x : SeqNo) : a.next = x ↔ seqDist a x = 1 := by
  constructor
  · intro h
    rw [← h]
    have := a.2
    unfold seqDist
    rw [SeqNo.next_val]
    omega
  · intro h
    have := seq_add_dist a x
    rw [h] at this
    exact this

namespace FrameBuffer

/-- When every slot from the read marker onwards is filled, `n` pops return
exactly the stored frames in walk order and advance the marker `n` steps. -/
theorem iteratePop_run {α : Type} :
    ∀ (n : Nat) (st : FrameBuffer α), n ≤ 65536 →
      (∀ i, i < n → (st.data (st.read_marker + seqOfNat i)).isSome = true) →
      (st.iteratePop n).1 =
        (List.range n).map (fun i => st.data (st.read_marker + seqOfNat i)) ∧
      (st.iteratePop n).2.read_marker = st.read_marker + seqOfNat n := by
  intro n
  induction n with
  | zero =>
      intro st _ _
      exact ⟨rfl, (seq_add_ofNat_zero st.read_marker).symm⟩
  | succ n ih =>
      intro st hn hfill
      have h0 : (st.data (st.read_marker + seqOfNat 0)).isSome = true :=
        hfill 0 (by omega)
      rw [seq_add_ofNat_zero] at h0
      obtain ⟨f0, hf0⟩ := Option.isSome_iff_exists.mp h0
      have hstep : st.iteratePop (n + 1) =
          (some f0 :: (st.pop_front.2.iteratePop n).1,
           (st.pop_front.2.iteratePop n).2) := by
        simp [iteratePop, pop_front_some st f0 hf0]
      have hsub : ∀ i, i < n →
          (st.pop_front.2.data (st.pop_front.2.read_marker + seqOfNat i)).isSome
            = true := by
        intro i hi
        rw [pop_front_some st f0 hf0]
        simp only
        have hne := seq_next_add_ne st.read_marker i (by omega)
        rw [mapRemove_other _ _ _ hne, ← seq_add_succ]
        exact hfill (i + 1) (by omega)
      obtain ⟨hres, hrm⟩ := ih st.pop_front.2 (by omega) hsub
      constructor
      · rw [hstep]
        simp only
        rw [hres, List.range_succ_eq_map, List.map_cons, List.map_map]
        congr 1
        · rw [seq_add_ofNat_zero, hf0]
        · apply List.map_congr_left
          intro i hi
          have hi' : i < n := List.mem_range.mp hi
          rw [pop_front_some st f0 hf0]
          simp only [Function.comp]
          have hne := seq_next_add_ne st.read_marker i (by omega)
          rw [mapRemove_other _ _ _ hne, ← seq_add_succ]
      · rw [hstep]
        simp only
        rw [hrm, pop_front_some st f0 hf0]
        simp only
        rw [← seq_add_succ]

end FrameBuffer

/-! ## Claim C10 -/

/-- C10: when nothing is stored under the read marker, `pop_front` returns
`none` and leaves the buffer (markers and entries) unchanged; iterating pops
therefore never advances the marker over the gap, and `add_packet` never
moves the read marker either — only `flush` can move it over a gap. -/
theorem C10_pop_front_gap {α : Type} (st : FrameBuffer α)
    (h : st.data st.read_marker = none) :
    st.pop_front = (none, st) ∧
    (∀ n : Nat, st.iteratePop n = (List.replicate n none, st)) ∧
    (∀ (seq : SeqNo) (f : α),
      (st.add_packet seq f).2.read_marker = st.read_marker) := by
  exact ⟨FrameBuffer.pop_front_none st h, FrameBuffer.iteratePop_stuck st h,
    fun _ _ => rfl⟩

/-- Witness for C10 at a concrete buffer with a gap at the read marker. -/
theorem C10_pop_front_gap_witness :
    ((FrameBuffer.new Nat 0).add_packet 2 7).2.pop_front =
      (none, ((FrameBuffer.new Nat 0).add_packet 2 7).2) :=
  (C10_pop_front_gap ((FrameBuffer.new Nat 0).add_packet 2 7).2 (by decide)).1

/-! ## Claim C3 -/

/-- C3 fails as stated: `flush(t)` only clears the forward walk from the read
marker to `t`.  From a fresh buffer at 0, `add_packet(65535)` stores a key
serially *less than* 1 (it is two forward steps from 65535 to 1), yet
`flush(1)` keeps it. -/
theorem C3_counterexample :
    ((((FrameBuffer.new Nat 0).add_packet 65535 7).2).flush 1).data 65535 =
      some 7 ∧
    seqLt 65535 1 ∧
    ((((FrameBuffer.new Nat 0).add_packet 65535 7).2).flush 1).read_marker = 1
    := by
  refine ⟨?_, by decide, ?_⟩ <;> decide

/-- C3 amended: `flush(t)` sets the read marker to `t`, keeps the write
marker, and clears exactly the entries on the forward walk from the old read
marker to `t` (entries elsewhere survive, even when serially below `t`);
moreover every frame a subsequent run of pops returns at position `j` was
stored at `t + j`, a key the flush did not clear. -/
theorem C3_flush_clears_walk {α : Type} (st : FrameBuffer α) (t : SeqNo) :
    (st.flush t).read_marker = t ∧
    (st.flush t).write_marker = st.write_marker ∧
    (∀ k, (st.flush t).data k =
      if seqDist st.read_marker k < seqDist st.read_marker t then none
      else st.data k) ∧
    (∀ (n j : Nat) (f : α),
      ((st.flush t).iteratePop n).1.getD j none = some f →
      st.data (t + seqOfNat j) = some f ∧
      ¬ seqDist st.read_marker (t + seqOfNat j) < seqDist st.read_marker t) := by
  obtain ⟨hrm, hwm, hdata⟩ := FrameBuffer.flush_spec st t
  refine ⟨hrm, hwm, hdata, ?_⟩
  intro n j f hpop
  have hidx := FrameBuffer.iteratePop_index n (st.flush t) j f hpop
  rw [hrm] at hidx
  have := hdata (t + seqOfNat j)
  by_cases hcut : seqDist st.read_marker (t + seqOfNat j) <
      seqDist st.read_marker t
  · rw [this] at hidx
    simp [hcut] at hidx
  · rw [this] at hidx
    simp only [hcut, if_false] at hidx
    exact ⟨hidx, hcut⟩

/-- Witness for C3 (amended): flushing to the read marker is a no-op and a
pop then returns the frame stored right at it. -/
theorem C3_flush_clears_walk_witness :
    ((FrameBuffer.new Nat 5).add_packet 5 7).2.data (5 + seqOfNat 0) = some 7 ∧
    ¬ seqDist (5 : SeqNo) (5 + seqOfNat 0) < seqDist (5 : SeqNo) 5 :=
  (C3_flush_clears_walk ((FrameBuffer.new Nat 5).add_packet 5 7).2 5).2.2.2
    1 0 7 (by decide)

/-! ## Claim C4 -/

/-- C4 fails as stated: `add_packet` accepts any sequence, and adding 65535
to a fresh buffer created at 0 makes the write marker serially precede the
read marker, violating the claimed invariant. -/
theorem C4_counterexample :
    ¬ specInvariant ((FrameBuffer.new Nat 0).add_packet 65535 7).2 := by
  intro h
  have h1 := h.1
  revert h1
  decide

/-- The distance form of the invariant implies the spec's serial-order form. -/
theorem distInvariant_implies_spec {α : Type} (st : FrameBuffer α)
    (h : distInvariant st) : specInvariant st := by
  obtain ⟨hwm, hkeys⟩ := h
  have hle : seqLe st.read_marker st.write_marker := by
    by_cases heq : st.read_marker = st.write_marker
    · exact Or.inl heq
    · refine Or.inr ⟨?_, hwm⟩
      rcases Nat.eq_zero_or_pos (seqDist st.read_marker st.write_marker) with
        h0 | h0
      · exact absurd ((seqDist_eq_zero_iff _ _).mp h0) heq
      · exact h0
  refine ⟨hle, ?_⟩
  intro k hk
  have hdk := hkeys k hk
  constructor
  · by_cases heq : st.read_marker = k
    · exact Or.inl heq
    · refine Or.inr ⟨?_, by omega⟩
      rcases Nat.eq_zero_or_pos (seqDist st.read_marker k) with h0 | h0
      · exact absurd ((seqDist_eq_zero_iff _ _).mp h0) heq
      · exact h0
  · have hsub := seqDist_sub_of_le st.read_marker k st.write_marker hdk
    by_cases heq : k = st.write_marker
    · exact Or.inl heq
    · refine Or.inr ⟨?_, by omega⟩
      rcases Nat.eq_zero_or_pos (seqDist k st.write_marker) with h0 | h0
      · exact absurd ((seqDist_eq_zero_iff _ _).mp h0) heq
      · exact h0

/-- C4 amended: the invariant (in distance form, which implies the spec's
serial-order form) holds for a fresh buffer and is preserved by the three
operations under the side conditions the wrap arithmetic forces: `add_packet`
when the new sequence is at least as far forward of the read marker as the
old write marker and within half a window; `flush(t)` when `t` lies on the
walk up to the write marker; `pop_front` when the slot is empty or the
read marker has not caught up with the write marker.  Without these side
conditions each operation can break the invariant. -/
theorem C4_invariant_preservation (α : Type) :
    (∀ s : SeqNo, distInvariant (FrameBuffer.new α s)) ∧
    (∀ (st : FrameBuffer α) (seq : SeqNo) (f : α), distInvariant st →
      seqDist st.read_marker st.write_marker ≤ seqDist st.read_marker seq →
      seqDist st.read_marker seq < 32768 →
      distInvariant (st.add_packet seq f).2) ∧
    (∀ (st : FrameBuffer α) (t : SeqNo), distInvariant st →
      seqDist st.read_marker t ≤ seqDist st.read_marker st.write_marker →
      distInvariant (st.flush t)) ∧
    (∀ st : FrameBuffer α, distInvariant st →
      st.data st.read_marker = none ∨ st.read_marker ≠ st.write_marker →
      distInvariant st.pop_front.2) := by
  refine ⟨?_, ?_, ?_, ?_⟩
  · intro s
    refine ⟨?_, ?_⟩
    · show seqDist s s < 32768
      rw [seqDist_self]
      omega
    · intro k hk
      simp [FrameBuffer.new] at hk
  · intro st seq f hInv hMono hHalf
    obtain ⟨hwm, hkeys⟩ := hInv
    refine ⟨hHalf, ?_⟩
    intro k hk
    show seqDist st.read_marker k ≤ seqDist st.read_marker seq
    by_cases hks : k = seq
    · subst hks; omega
    · have : ((st.add_packet seq f).2).data k = st.data k :=
        mapInsert_other _ _ _ _ hks
      rw [show ((st.add_packet seq f).2).data k = mapInsert st.data seq f k
          from rfl, mapInsert_other _ _ _ _ hks] at hk
      have := hkeys k hk
      omega
  · intro st t hInv hWalk
    obtain ⟨hwm, hkeys⟩ := hInv
    obtain ⟨hrm, hwmEq, hdata⟩ := FrameBuffer.flush_spec st t
    have hDistT : seqDist t st.write_marker =
        seqDist st.read_marker st.write_marker - seqDist st.read_marker t :=
      seqDist_sub_of_le _ _ _ hWalk
    constructor
    · rw [hrm, hwmEq]
      omega
    · intro k hk
      rw [hrm, hwmEq]
      rw [hdata k] at hk
      by_cases hcut : seqDist st.read_marker k < seqDist st.read_marker t
      · simp [hcut] at hk
      · simp only [hcut, if_false] at hk
        have hkd := hkeys k hk
        have hsubk : seqDist t k =
            seqDist st.read_marker k - seqDist st.read_marker t :=
          seqDist_sub_of_le _ _ _ (by omega)
        omega
  · intro st hInv hcond
    obtain ⟨hwm, hkeys⟩ := hInv
    match hpop : st.data st.read_marker with
    | none =>
        rw [FrameBuffer.pop_front_none st hpop]
        exact ⟨hwm, hkeys⟩
    | some f =>
        have hne : st.read_marker ≠ st.write_marker := by
          rcases hcond with hc | hc
          · rw [hpop] at hc; exact absurd hc (by simp)
          · exact hc
        rw [FrameBuffer.pop_front_some st f hpop]
        have hstep : seqDist st.read_marker st.write_marker =
            seqDist st.read_marker.next st.write_marker + 1 :=
          seqDist_next st.read_marker st.write_marker (fun h => hne h.symm)
        constructor
        · simp only
          omega
        · intro k hk
          simp only at hk ⊢
          by_cases hkr : k = st.read_marker
          · subst hkr
            rw [mapRemove_self] at hk
            exact absurd hk (by simp)
          · rw [mapRemove_other _ _ _ hkr] at hk
            have hkd := hkeys k hk
            have hkstep : seqDist st.read_marker k =
                seqDist st.read_marker.next k + 1 :=
              seqDist_next st.read_marker k hkr
            omega

/-- Witness for C4 (amended): a fresh buffer at 0 keeps the invariant after
an in-window `add_packet(5)`. -/
theorem C4_invariant_preservation_witness :
    distInvariant ((FrameBuffer.new Nat 0).add_packet 5 7).2 :=
  (C4_invariant_preservation Nat).2.1 (FrameBuffer.new Nat 0) 5 7
    ((C4_invariant_preservation Nat).1 0) (by decide) (by decide)

/-! ## Claim C1 -/

/-- C1 fails as stated in one corner: when the new sequence is serially
*behind* the old write marker by more than half the window, the returned
range (as a Rust `Range`, membership `start <= x && x < end`) picks up the
point half a window past the old marker, which is not strictly between the
markers.  Concretely from a fresh buffer at 0, `add_packet(40000)` returns
the range `1..40000`, which contains 32768, yet `0 < 32768` fails in the
serial-number order. -/
theorem C1_counterexample :
    rangeContains ((FrameBuffer.new Nat 0).add_packet 40000 7).1 32768 ∧
    ¬ seqLt (0 : SeqNo) 32768 ∧
    ((FrameBuffer.new Nat 0).add_packet 40000 7).1 =
      { start := 1, stop := 40000 } := by
  refine ⟨by decide, by decide, by decide⟩

/-- C1 amended: `add_packet(seq, f)` stores `f` under `seq`, sets the write
marker to `seq`, leaves the read marker alone and returns the range
`old_write_marker.next() .. seq`; the range is empty for a duplicate
(`seq = old`) and for an in-order packet (`seq = old.next()`); and whenever
`seq` is not serially behind the old write marker (forward distance at most
2^15) the range's members are exactly the sequences strictly between the old
and the new write marker in serial-number order. -/
theorem C1_add_packet_range {α : Type} (st : FrameBuffer α) (seq : SeqNo)
    (f : α) :
    (st.add_packet seq f).2.data seq = some f ∧
    (st.add_packet seq f).2.write_marker = seq ∧
    (st.add_packet seq f).2.read_marker = st.read_marker ∧
    (st.add_packet seq f).1 = { start := st.write_marker.next, stop := seq } ∧
    (seq = st.write_marker → rangeIsEmpty (st.add_packet seq f).1) ∧
    (seq = st.write_marker.next → rangeIsEmpty (st.add_packet seq f).1) ∧
    (seqDist st.write_marker seq ≤ 32768 →
      ∀ x, rangeContains (st.add_packet seq f).1 x ↔
        seqLt st.write_marker x ∧ seqLt x seq) := by
  refine ⟨mapInsert_self _ _ _, rfl, rfl, rfl, ?_, ?_, ?_⟩
  · intro hdup
    subst hdup
    show ¬ seqLt st.write_marker.next st.write_marker
    intro hlt
    have := seqDist_next_left st.write_marker st.write_marker
    have := seqDist_self st.write_marker
    have := hlt.1
    have := hlt.2
    omega
  · intro hord
    subst hord
    show ¬ seqLt st.write_marker.next st.write_marker.next
    intro hlt
    have := seqDist_self st.write_marker.next
    have := hlt.1
    omega
  · intro hhalf x
    show seqLe st.write_marker.next x ∧ seqLt x seq ↔
      seqLt st.write_marker x ∧ seqLt x seq
    have e1 := seqDist_next_left st.write_marker x
    have e2 := seqDist_chain st.write_marker x seq
    have e3 : st.write_marker.next = x ↔ seqDist st.write_marker x = 1 :=
      seq_next_eq_iff_dist st.write_marker x
    have hb1 := seqDist_lt st.write_marker x
    have hb2 := seqDist_lt st.write_marker seq
    have hb3 := seqDist_lt x seq
    unfold seqLe seqLt
    rw [e3, e1, e2]
    omega

/-- Witness for C1 (amended), at an in-window jump 0 → 5 checking
membership of 3. -/
theorem C1_add_packet_range_witness :
    rangeContains ((FrameBuffer.new Nat 0).add_packet 5 7).1 3 ↔
      seqLt (0 : SeqNo) 3 ∧ seqLt (3 : SeqNo) 5 :=
  (C1_add_packet_range (FrameBuffer.new Nat 0) 5 7).2.2.2.2.2.2 (by decide) 3

/-! ## Claim C2 -/

/-- C2 fails as stated: after `add(2, f)` on a fresh buffer reading at 0,
the two slots before 2 are gaps, `pop_front` refuses to advance over them,
and `distance+1 = 3` pops yield only `none` (the sink turns these into
silence) — the frame `f` at position 2 is never yielded. -/
theorem C2_counterexample :
    (((FrameBuffer.new Nat 0).add_packet 2 7).2.iteratePop 3).1 =
      [none, none, none] ∧
    ((FrameBuffer.new Nat 0).add_packet 2 7).2.data 2 = some 7 ∧
    seqDist (0 : SeqNo) 2 + 1 = 3 ∧
    (((FrameBuffer.new Nat 0).add_packet 2 7).2.iteratePop 3).2.read_marker
      = 0 := by
  refine ⟨by decide, by decide, by decide, by decide⟩

/-- C2 amended: after `add(s, f)`, *provided every slot on the forward walk
from the read marker up to `s` is filled*, `distance(read_marker, s) + 1`
pops return exactly the stored frames in walk order and the last of them is
`f`; with a gap before `s` the pops return `none` there (the sink substitutes
silence) without advancing, and `f` is never reached (claim C10's theorem). -/
theorem C2_drain_reaches_added {α : Type} (st : FrameBuffer α) (s : SeqNo)
    (f : α)
    (hfill : ∀ i, i < seqDist st.read_marker s →
      ((st.add_packet s f).2.data (st.read_marker + seqOfNat i)).isSome
        = true) :
    ((st.add_packet s f).2.iteratePop (seqDist st.read_marker s + 1)).1 =
      (List.range (seqDist st.read_marker s + 1)).map
        (fun i => (st.add_packet s f).2.data (st.read_marker + seqOfNat i)) ∧
    ((st.add_packet s f).2.iteratePop (seqDist st.read_marker s + 1)).1.getD
      (seqDist st.read_marker s) none = some f := by
  have hd := seqDist_lt st.read_marker s
  have hlast : (st.add_packet s f).2.data
      (st.read_marker + seqOfNat (seqDist st.read_marker s)) = some f := by
    rw [seq_add_dist st.read_marker s]
    exact mapInsert_self _ _ _
  have hall : ∀ i, i < seqDist st.read_marker s + 1 →
      (((st.add_packet s f).2).data
        (((st.add_packet s f).2).read_marker + seqOfNat i)).isSome = true := by
    intro i hi
    by_cases hiend : i = seqDist st.read_marker s
    · subst hiend
      show ((st.add_packet s f).2.data
        (st.read_marker + seqOfNat (seqDist st.read_marker s))).isSome = true
      rw [hlast]
      rfl
    · exact hfill i (by omega)
  obtain ⟨hres, _⟩ := FrameBuffer.iteratePop_run (seqDist st.read_marker s + 1)
    (st.add_packet s f).2 (by omega) hall
  refine ⟨hres, ?_⟩
  rw [hres]
  have hlen : seqDist st.read_marker s < seqDist st.read_marker s + 1 := by
    omega
  rw [List.getD_eq_getElem?_getD, List.getElem?_map, List.getElem?_range hlen]
  show (st.add_packet s f).2.data
    (st.read_marker + seqOfNat (seqDist st.read_marker s)) = some f
  exact hlast

/-- Witness for C2 (amended): frames at 0 and 1, read marker at 0; two pops
reach the frame added at 1. -/
theorem C2_drain_reaches_added_witness :
    (((((FrameBuffer.new Nat 0).add_packet 0 7).2).add_packet 1 8).2.iteratePop
      (seqDist (0 : SeqNo) 1 + 1)).1.getD (seqDist (0 : SeqNo) 1) none =
      some 8 :=
  (C2_drain_reaches_added ((FrameBuffer.new Nat 0).add_packet 0 7).2 1 8
    (by
      intro i hi
      have h1 : seqDist ((FrameBuffer.new Nat 0).add_packet 0 7).2.read_marker
          (1 : SeqNo) = 1 := by decide
      rw [h1] at hi
      have h0 : i = 0 := by omega
      subst h0
      decide)).2

/-! ## Base64 round-trip lemmas -/

theorem toSextets_lt (bs : List Nat) (h : ∀ x ∈ bs, x < 256) :
    ∀ s ∈ toSextets bs, s < 64 := by
  induction bs using toSextets.induct with
  | case1 => intro s hs; simp [toSextets] at hs
  | case2 a =>
      intro s hs
      have ha := h a (by simp)
      simp [toSextets] at hs
      rcases hs with h1 | h1 <;> omega
  | case3 a b =>
      intro s hs
      have ha := h a (by simp)
      have hb := h b (by simp)
      simp [toSextets] at hs
      rcases hs with h1 | h1 | h1 <;> omega
  | case4 a b c rest ih =>
      intro s hs
      have ha := h a (by simp)
      have hb := h b (by simp)
      have hc := h c (by simp)
      have hrest : ∀ x ∈ rest, x < 256 := fun x hx => h x (by simp [hx])
      simp only [toSextets, List.mem_cons] at hs
      rcases hs with h1 | h1 | h1 | h1 | h1
      · omega
      · omega
      · omega
      · omega
      · exact ih hrest s h1

theorem fromSextets_toSextets (bs : List Nat) (h : ∀ x ∈ bs, x < 256) :
    fromSextets (toSextets bs) = some bs := by
  induction bs using toSextets.induct with
  | case1 => rfl
  | case2 a =>
      have ha := h a (by simp)
      show fromSextets [a / 4, a % 4 * 16] = some [a]
      have hpad : a % 4 * 16 % 16 = 0 := by omega
      simp only [fromSextets, hpad, if_true]
      have : a / 4 * 4 + a % 4 * 16 / 16 = a := by omega
      rw [this]
  | case3 a b =>
      have ha := h a (by simp)
      have hb := h b (by simp)
      show fromSextets [a / 4, a % 4 * 16 + b / 16, b % 16 * 4] = some [a, b]
      have hpad : b % 16 * 4 % 4 = 0 := by omega
      simp only [fromSextets, hpad, if_true]
      have h1 : a / 4 * 4 + (a % 4 * 16 + b / 16) / 16 = a := by omega
      have h2 : (a % 4 * 16 + b / 16) % 16 * 16 + b % 16 * 4 / 4 = b := by omega
      rw [h1, h2]
  | case4 a b c rest ih =>
      have ha := h a (by simp)
      have hb := h b (by simp)
      have hc := h c (by simp)
      have hrest : ∀ x ∈ rest, x < 256 := fun x hx => h x (by simp [hx])
      show fromSextets ((a / 4) :: (a % 4 * 16 + b / 16) ::
        (b % 16 * 4 + c / 64) :: (c % 64) :: toSextets rest) =
        some (a :: b :: c :: rest)
      rw [show fromSextets ((a / 4) :: (a % 4 * 16 + b / 16) ::
          (b % 16 * 4 + c / 64) :: (c % 64) :: toSextets rest) =
        (fromSextets (toSextets rest)).map
          (fun tail => (a / 4 * 4 + (a % 4 * 16 + b / 16) / 16) ::
            ((a % 4 * 16 + b / 16) % 16 * 16 + (b % 16 * 4 + c / 64) / 4) ::
            ((b % 16 * 4 + c / 64) % 4 * 64 + c % 64) :: tail) from rfl]
      rw [ih hrest]
      have h1 : a / 4 * 4 + (a % 4 * 16 + b / 16) / 16 = a := by omega
      have h2 : (a % 4 * 16 + b / 16) % 16 * 16 + (b % 16 * 4 + c / 64) / 4 = b
        := by omega
      have h3 : (b % 16 * 4 + c / 64) % 4 * 64 + c % 64 = c := by omega
      rw [h1, h2, h3]
      rfl

theorem sextetOfChar_charOfSextet (s : Nat) (h : s < 64) :
    sextetOfChar (charOfSextet s) = some s := by
  interval_cases s <;> rfl

theorem charOfSextet_ne_pad (s : Nat) (h : s < 64) :
    (charOfSextet s != '=') = true := by
  interval_cases s <;> rfl

theorem sextetsOfChars_encode (sx : List Nat) (h : ∀ s ∈ sx, s < 64) :
    sextetsOfChars (sx.map charOfSextet) = some sx := by
  induction sx with
  | nil => rfl
  | cons s rest ih =>
      have hs := h s (by simp)
      have hrest : ∀ x ∈ rest, x < 64 := fun x hx => h x (by simp [hx])
      simp only [List.map_cons, sextetsOfChars,
        sextetOfChar_charOfSextet s hs, ih hrest]
      rfl

theorem takeWhile_encode (sx : List Nat) (h : ∀ s ∈ sx, s < 64) :
    (sx.map charOfSextet).takeWhile (fun c => c != '=') = sx.map charOfSextet
    := by
  induction sx with
  | nil => rfl
  | cons s rest ih =>
      have hs := h s (by simp)
      have hrest : ∀ x ∈ rest, x < 64 := fun x hx => h x (by simp [hx])
      simp only [List.map_cons, List.takeWhile_cons,
        charOfSextet_ne_pad s hs, if_true, ih hrest]

/-- Decoding inverts encoding on genuine byte strings. -/
theorem decode_encode_base64 (bs : List Nat) (h : ∀ x ∈ bs, x < 256) :
    decode_base64 (encode_base64 bs) = some bs := by
  have hsx := toSextets_lt bs h
  unfold decode_base64 encode_base64
  rw [takeWhile_encode _ hsx, sextetsOfChars_encode _ hsx]
  exact fromSextets_toSextets bs h

/-! ## Claim C6 -/

theorem addDefaultHeaders_cseq (ctx : HandlerCtx) (req : RtspRequest)
    (r0 r : RtspResponse) (h : addDefaultHeaders ctx req r0 = some r)
    (h0 : r0.cseq = none) : r.cseq = req.cseq := by
  unfold addDefaultHeaders at h
  cases hc : req.cseq <;> rw [hc] at h <;>
    cases hch : req.apple_challenge <;> rw [hch] at h <;>
    simp only [Option.some.injEq] at h
  case none.none =>
      rw [← h]
      exact h0
  case none.some ch =>
      cases hcc : calculate_challenge ctx.sign ctx.localIp ctx.hwAddr ch.toList
        <;> rw [hcc] at h <;> simp only [Option.some.injEq] at h
      · exact absurd h (by simp)
      · rw [← h]; exact h0
  case some.none c =>
      rw [← h]
  case some.some c ch =>
      cases hcc : calculate_challenge ctx.sign ctx.localIp ctx.hwAddr ch.toList
        <;> rw [hcc] at h <;> simp only [Option.some.injEq] at h
      · exact absurd h (by simp)
      · rw [← h]

/-- C6 fails as stated: a DESCRIBE request with `CSeq: 1` is answered by the
405 Method Not Allowed branch, which does not run `add_default_headers`, so
the response carries no CSeq (and no Server header either). -/
theorem C6_counterexample :
    executeR c6ctx c6req = .response { status := 405 } ∧
    c6req.cseq = some "1" ∧
    ({ status := 405 } : RtspResponse).cseq = none := by
  exact ⟨rfl, rfl, rfl⟩

/-- C6 amended: every response that `execute` routes through
`add_default_headers` — OPTIONS, SETUP with parsed ports, GET_PARAMETER,
SET_PARAMETER with `text/parameters`, ANNOUNCE, RECORD, TEARDOWN and FLUSH —
carries a CSeq equal to the request's when present and no CSeq otherwise;
the 405 Method Not Allowed branch and the SET_PARAMETER branch for an
unsupported content type skip `add_default_headers` and never carry a CSeq,
even when the request has one. -/
theorem C6_cseq_echo (ctx : HandlerCtx) (req : RtspRequest)
    (r : RtspResponse) (h : executeR ctx req = .response r) :
    r.cseq = if usesDefaultHeaders req then req.cseq else none := by
  obtain ⟨m, cs, ch, ct, tp, bu, bl, so, sf, ri⟩ := req
  cases m
  case options =>
      simp only [executeR] at h
      cases had : addDefaultHeaders ctx
          ⟨.options, cs, ch, ct, tp, bu, bl, so, sf, ri⟩ { status := 200 } <;>
        rw [had] at h <;> simp only [ExecResult.response.injEq] at h
      · exact absurd h (by simp)
      · subst h
        simpa [usesDefaultHeaders] using
          addDefaultHeaders_cseq _ _ _ _ had rfl
  case setup =>
      simp only [executeR] at h
      cases tp with
      | none => simp at h
      | some p =>
          simp only at h
          cases hok : ctx.setup_ok <;> rw [hok] at h <;>
            simp only [Bool.false_eq_true, if_false, if_true] at h
          · cases had : addDefaultHeaders ctx
                ⟨.setup, cs, ch, ct, some p, bu, bl, so, sf, ri⟩
                { status := 451 } <;>
              rw [had] at h <;> simp only [ExecResult.response.injEq] at h
            · exact absurd h (by simp)
            · subst h
              simpa [usesDefaultHeaders] using
                addDefaultHeaders_cseq _ _ _ _ had rfl
          · cases had : addDefaultHeaders ctx
                ⟨.setup, cs, ch, ct, some p, bu, bl, so, sf, ri⟩
                { status := 200, has_session := true, has_transport := true }
                <;>
              rw [had] at h <;> simp only [ExecResult.response.injEq] at h
            · exact absurd h (by simp)
            · subst h
              simpa [usesDefaultHeaders] using
                addDefaultHeaders_cseq _ _ _ _ had rfl
  case getParameter =>
      simp only [executeR] at h
      cases had : addDefaultHeaders ctx
          ⟨.getParameter, cs, ch, ct, tp, bu, bl, so, sf, ri⟩
          { status := 200 } <;> rw [had] at h
      · exact absurd h (by simp)
      · cases bu with
        | false => simp at h
        | true =>
            simp only [if_true, reduceIte, ExecResult.response.injEq] at h
            subst h
            simpa [usesDefaultHeaders] using
              addDefaultHeaders_cseq _ _ _ _ had rfl
  case setParameter =>
      simp only [executeR] at h
      cases ct with
      | none =>
          simp only [ExecResult.response.injEq] at h
          subst h
          simp [usesDefaultHeaders]
      | some ctv =>
          simp only at h
          by_cases hct : ctv = "text/parameters"
          · subst hct
            simp only [if_true, reduceIte] at h
            cases bu with
            | true => ?_
            | false => simp at h
            simp only [Bool.true_eq_false, reduceIte] at h
            cases hlines : setParameterLinesOk ctx.parse_f64_ok bl with
            | false => rw [hlines] at h; simp at h
            | true =>
                rw [hlines] at h
                simp only [if_true, reduceIte] at h
                cases had : addDefaultHeaders ctx
                    ⟨.setParameter, cs, ch, some "text/parameters", tp, true,
                      bl, so, sf, ri⟩ { status := 200 } <;>
                  rw [had] at h <;>
                  simp only [ExecResult.response.injEq] at h
                · exact absurd h (by simp)
                · subst h
                  simpa [usesDefaultHeaders] using
                    addDefaultHeaders_cseq _ _ _ _ had rfl
          · rw [if_neg hct] at h
            simp only [ExecResult.response.injEq] at h
            subst h
            simp [usesDefaultHeaders, hct]
  case announce =>
      simp only [executeR] at h
      cases so with
      | false => rw [if_pos rfl] at h; simp at h
      | true => ?_
      rw [if_neg (by simp)] at h
      cases sf with
      | none => simp at h
      | some fm =>
          simp only at h
          cases hok : ctx.announce_ok <;> rw [hok] at h <;>
            simp only [Bool.false_eq_true, if_false, if_true] at h
          · cases had : addDefaultHeaders ctx
                ⟨.announce, cs, ch, ct, tp, bu, bl, true, some fm, ri⟩
                { status := 453 } <;>
              rw [had] at h <;> simp only [ExecResult.response.injEq] at h
            · exact absurd h (by simp)
            · subst h
              simpa [usesDefaultHeaders] using
                addDefaultHeaders_cseq _ _ _ _ had rfl
          · cases had : addDefaultHeaders ctx
                ⟨.announce, cs, ch, ct, tp, bu, bl, true, some fm, ri⟩
                { status := 200 } <;>
              rw [had] at h <;> simp only [ExecResult.response.injEq] at h
            · exact absurd h (by simp)
            · subst h
              simpa [usesDefaultHeaders] using
                addDefaultHeaders_cseq _ _ _ _ had rfl
  case record =>
      simp only [executeR] at h
      cases had : addDefaultHeaders ctx
          ⟨.record, cs, ch, ct, tp, bu, bl, so, sf, ri⟩
          { status := 200, has_audio_latency := true } <;>
        rw [had] at h <;> simp only [ExecResult.response.injEq] at h
      · exact absurd h (by simp)
      · subst h
        simpa [usesDefaultHeaders] using
          addDefaultHeaders_cseq _ _ _ _ had rfl
  case teardown =>
      simp only [executeR] at h
      cases had : addDefaultHeaders ctx
          ⟨.teardown, cs, ch, ct, tp, bu, bl, so, sf, ri⟩
          { status := 200, connection_close := true } <;>
        rw [had] at h <;> simp only [ExecResult.response.injEq] at h
      · exact absurd h (by simp)
      · subst h
        simpa [usesDefaultHeaders] using
          addDefaultHeaders_cseq _ _ _ _ had rfl
  case flushExt =>
      simp only [executeR] at h
      cases had : addDefaultHeaders ctx
          ⟨.flushExt, cs, ch, ct, tp, bu, bl, so, sf, ri⟩
          { status := 200 } <;>
        rw [had] at h <;> simp only [ExecResult.response.injEq] at h
      · exact absurd h (by simp)
      · subst h
        simpa [usesDefaultHeaders] using
          addDefaultHeaders_cseq _ _ _ _ had rfl
  case otherExtension =>
      simp only [executeR] at h
      exact absurd h (by simp)
  case describe =>
      simp only [executeR, ExecResult.response.injEq] at h
      subst h
      simp [usesDefaultHeaders]
  case pause =>
      simp only [executeR, ExecResult.response.injEq] at h
      subst h
      simp [usesDefaultHeaders]
  case play =>
      simp only [executeR, ExecResult.response.injEq] at h
      subst h
      simp [usesDefaultHeaders]
  case playNotify =>
      simp only [executeR, ExecResult.response.injEq] at h
      subst h
      simp [usesDefaultHeaders]
  case redirect =>
      simp only [executeR, ExecResult.response.injEq] at h
      subst h
      simp [usesDefaultHeaders]

/-- Witness for C6 (amended): the OPTIONS response with `CSeq: 7` echoed. -/
theorem C6_cseq_echo_witness :
    ({ status := 200, cseq := some "7", server := some "AirTunes/105.1",
       has_public := true } : RtspResponse).cseq = some "7" := by
  have h := C6_cseq_echo c6ctx c6wreq
    { status := 200, cseq := some "7", server := some "AirTunes/105.1",
      has_public := true } (by rfl)
  rw [h]
  simp [usesDefaultHeaders, c6wreq]

/-- C8 is what the code *should* do, per its own `TODO` comment ("on error we
should send a response anyways") and the spec; the code instead propagates
the parse error out of `execute`: on `volume: abc` with
`Content-Type: text/parameters`, `volume.trim().parse::<f64>()?` aborts
`execute`, `Handler::run` re-raises it, so *no* response is written and the
connection is torn down rather than kept open. -/
theorem C8_parse_error_drops_connection :
    validF64 "abc" = false ∧
    executeR c8ctx c8req = .failure ∧
    runHandler c8ctx [c8req] = ([], .errored) := by
  exact ⟨rfl, rfl, rfl⟩

/-- C9 fails as stated: `Teardown` never assigns the `frame_buffer` binding,
so the reorder buffer reference survives the teardown instead of being
cleared to `None`. -/
theorem C9_counterexample :
    (teardownStep c9state).frame_buffer = c9state.frame_buffer ∧
    c9state.frame_buffer ≠ none := by
  exact ⟨rfl, by simp [c9state]⟩

/-- C9 amended: after `Teardown` the session shutdown bus has been dropped
and encryption, cipher and codec are cleared to `None`; the audio volume
*and the reorder buffer reference* (and the control-sender handle) are left
unchanged. -/
theorem C9_teardown_clears {V : Type} (st : PlayerState V) :
    (teardownStep st).notify_shutdown = none ∧
    (teardownStep st).encryption = none ∧
    (teardownStep st).cipher = none ∧
    (teardownStep st).alac = none ∧
    (teardownStep st).airplay_volume = st.airplay_volume ∧
    (teardownStep st).frame_buffer = st.frame_buffer ∧
    (teardownStep st).control_tx = st.control_tx := by
  exact ⟨rfl, rfl, rfl, rfl, rfl, rfl, rfl⟩

/-- C7 describes the intended behaviour (spec §4.5 and the spec's own note
recommending "drop the packet with a warning; do not crash"); the code
instead panics: with encryption or cipher absent the `PutPacket` arm runs
`todo!()`, with the ALAC decoder absent likewise, and a decrypt or decode
failure hits `.unwrap()` — all of which crash the player task instead of
dropping the packet and continuing. -/
theorem C7_put_packet_panics {V : Type} (decrypt : List Nat → Option (List Nat))
    (alacDecode : List Nat → Option (List Int)) (st : PlayerState V)
    (seq : SeqNo) (packet : List Nat) :
    (st.encryption = none ∨ st.cipher = none →
      putPacketStep decrypt alacDecode st seq packet = .panics) ∧
    (st.alac = none →
      putPacketStep decrypt alacDecode st seq packet = .panics) ∧
    (∀ plain, decrypt packet = some plain → alacDecode plain = none →
      putPacketStep decrypt alacDecode st seq packet = .panics) := by
  refine ⟨?_, ?_, ?_⟩
  · intro h
    unfold putPacketStep
    rcases h with h | h
    · rw [h]
    · rw [h]
      cases st.encryption <;> rfl
  · intro h
    unfold putPacketStep
    cases henc : st.encryption with
    | none => rfl
    | some e =>
        cases hci : st.cipher with
        | none => rfl
        | some c =>
            cases hd : decrypt packet with
            | none => rfl
            | some plain => simp only [h]
  · intro plain hplain hdec
    unfold putPacketStep
    cases henc : st.encryption with
    | none => rfl
    | some e =>
        cases hci : st.cipher with
        | none => rfl
        | some c =>
            rw [hplain]
            cases hal : st.alac with
            | none => rfl
            | some a => simp only [hdec]

/-- Witness for C7: a `PutPacket` arriving before ANNOUNCE (no key installed)
panics the player task. -/
theorem C7_put_packet_panics_witness :
    putPacketStep c7decrypt c7decode c7state 0 [] = .panics :=
  (C7_put_packet_panics c7decrypt c7decode c7state 0 []).1 (Or.inl rfl)


/-! ## Claim C5 (theorems) -/

/-- Specification of `calculate_challenge`: on a decodable challenge it
returns exactly the unpadded base64 encoding of the signature over
`challenge bytes ++ local IP octets ++ hardware address`. -/
theorem calculate_challenge_spec (ctx : HandlerCtx) (chStr : String)
    (chall : List Nat) (hdec : decode_base64 chStr.toList = some chall) :
    calculate_challenge ctx.sign ctx.localIp ctx.hwAddr chStr.toList =
      some (encode_base64 (ctx.sign (chall ++ ctx.localIp ++ ctx.hwAddr))) := by
  unfold calculate_challenge
  rw [hdec]

/-- Every response built by `add_default_headers` for a request carrying a
decodable challenge has the computed challenge response as its
`Apple-Response` header. -/
theorem addDefaultHeaders_apple_response (ctx : HandlerCtx)
    (req : RtspRequest) (r0 r : RtspResponse) (chStr : String)
    (chall : List Nat) (hch : req.apple_challenge = some chStr)
    (hdec : decode_base64 chStr.toList = some chall)
    (hadd : addDefaultHeaders ctx req r0 = some r) :
    r.apple_response = some (String.mk
      (encode_base64 (ctx.sign (chall ++ ctx.localIp ++ ctx.hwAddr)))) := by
  have hcalc := calculate_challenge_spec ctx chStr chall hdec
  unfold addDefaultHeaders at hadd
  rw [hch] at hadd
  simp only [hcalc, Option.some.injEq] at hadd
  rw [← hadd]

/-- Branch analysis of `execute`: a response from a branch that routes
through `add_default_headers` is one of its outputs up to the `Public` flag
(so shares its `Apple-Response` header); the 405 branch and the
SET_PARAMETER branch for an unsupported content type emit responses with no
`Apple-Response` at all. -/
theorem executeR_default_headers (ctx : HandlerCtx) (req : RtspRequest)
    (r : RtspResponse) (h : executeR ctx req = .response r) :
    (usesDefaultHeaders req = true →
      ∃ r0 r1, addDefaultHeaders ctx req r0 = some r1 ∧
        r.apple_response = r1.apple_response) ∧
    (usesDefaultHeaders req = false → r.apple_response = none) := by
  obtain ⟨m, cs, ch, ct, tp, bu, bl, so, sf, ri⟩ := req
  cases m
  case options =>
      simp only [executeR] at h
      cases had : addDefaultHeaders ctx
          ⟨.options, cs, ch, ct, tp, bu, bl, so, sf, ri⟩ { status := 200 } <;>
        rw [had] at h <;> simp only [ExecResult.response.injEq] at h
      · exact absurd h (by simp)
      · subst h
        refine ⟨fun _ => ⟨_, _, had, rfl⟩, fun hfalse => ?_⟩
        simp [usesDefaultHeaders] at hfalse
  case setup =>
      simp only [executeR] at h
      cases tp with
      | none => simp at h
      | some p =>
          simp only at h
          cases hok : ctx.setup_ok <;> rw [hok] at h <;>
            simp only [Bool.false_eq_true, if_false, if_true] at h
          · cases had : addDefaultHeaders ctx
                ⟨.setup, cs, ch, ct, some p, bu, bl, so, sf, ri⟩
                { status := 451 } <;>
              rw [had] at h <;> simp only [ExecResult.response.injEq] at h
            · exact absurd h (by simp)
            · subst h
              refine ⟨fun _ => ⟨_, _, had, rfl⟩, fun hfalse => ?_⟩
              simp [usesDefaultHeaders] at hfalse
          · cases had : addDefaultHeaders ctx
                ⟨.setup, cs, ch, ct, some p, bu, bl, so, sf, ri⟩
                { status := 200, has_session := true, has_transport := true }
                <;>
              rw [had] at h <;> simp only [ExecResult.response.injEq] at h
            · exact absurd h (by simp)
            · subst h
              refine ⟨fun _ => ⟨_, _, had, rfl⟩, fun hfalse => ?_⟩
              simp [usesDefaultHeaders] at hfalse
  case getParameter =>
      simp only [executeR] at h
      cases had : addDefaultHeaders ctx
          ⟨.getParameter, cs, ch, ct, tp, bu, bl, so, sf, ri⟩
          { status := 200 } <;> rw [had] at h
      · exact absurd h (by simp)
      · cases bu with
        | false => simp at h
        | true =>
            simp only [if_true, reduceIte, ExecResult.response.injEq] at h
            subst h
            refine ⟨fun _ => ⟨_, _, had, rfl⟩, fun hfalse => ?_⟩
            simp [usesDefaultHeaders] at hfalse
  case setParameter =>
      simp only [executeR] at h
      cases ct with
      | none =>
          simp only [ExecResult.response.injEq] at h
          subst h
          refine ⟨fun htrue => ?_, fun _ => rfl⟩
          simp [usesDefaultHeaders] at htrue
      | some ctv =>
          simp only at h
          by_cases hct : ctv = "text/parameters"
          · subst hct
            simp only [if_true, reduceIte] at h
            cases bu with
            | true => ?_
            | false => simp at h
            simp only [Bool.true_eq_false, reduceIte] at h
            cases hlines : setParameterLinesOk ctx.parse_f64_ok bl with
            | false => rw [hlines] at h; simp at h
            | true =>
                rw [hlines] at h
                simp only [if_true, reduceIte] at h
                cases had : addDefaultHeaders ctx
                    ⟨.setParameter, cs, ch, some "text/parameters", tp, true,
                      bl, so, sf, ri⟩ { status := 200 } <;>
                  rw [had] at h <;>
                  simp only [ExecResult.response.injEq] at h
                · exact absurd h (by simp)
                · subst h
                  refine ⟨fun _ => ⟨_, _, had, rfl⟩, fun hfalse => ?_⟩
                  simp [usesDefaultHeaders] at hfalse
          · rw [if_neg hct] at h
            simp only [ExecResult.response.injEq] at h
            subst h
            refine ⟨fun htrue => ?_, fun _ => rfl⟩
            simp [usesDefaultHeaders, hct] at htrue
  case announce =>
      simp only [executeR] at h
      cases so with
      | false => rw [if_pos rfl] at h; simp at h
      | true => ?_
      rw [if_neg (by simp)] at h
      cases sf with
      | none => simp at h
      | some fm =>
          simp only at h
          cases hok : ctx.announce_ok <;> rw [hok] at h <;>
            simp only [Bool.false_eq_true, if_false, if_true] at h
          · cases had : addDefaultHeaders ctx
                ⟨.announce, cs, ch, ct, tp, bu, bl, true, some fm, ri⟩
                { status := 453 } <;>
              rw [had] at h <;> simp only [ExecResult.response.injEq] at h
            · exact absurd h (by simp)
            · subst h
              refine ⟨fun _ => ⟨_, _, had, rfl⟩, fun hfalse => ?_⟩
              simp [usesDefaultHeaders] at hfalse
          · cases had : addDefaultHeaders ctx
                ⟨.announce, cs, ch, ct, tp, bu, bl, true, some fm, ri⟩
                { status := 200 } <;>
              rw [had] at h <;> simp only [ExecResult.response.injEq] at h
            · exact absurd h (by simp)
            · subst h
              refine ⟨fun _ => ⟨_, _, had, rfl⟩, fun hfalse => ?_⟩
              simp [usesDefaultHeaders] at hfalse
  case record =>
      simp only [executeR] at h
      cases had : addDefaultHeaders ctx
          ⟨.record, cs, ch, ct, tp, bu, bl, so, sf, ri⟩
          { status := 200, has_audio_latency := true } <;>
        rw [had] at h <;> simp only [ExecResult.response.injEq] at h
      · exact absurd h (by simp)
      · subst h
        refine ⟨fun _ => ⟨_, _, had, rfl⟩, fun hfalse => ?_⟩
        simp [usesDefaultHeaders] at hfalse
  case teardown =>
      simp only [executeR] at h
      cases had : addDefaultHeaders ctx
          ⟨.teardown, cs, ch, ct, tp, bu, bl, so, sf, ri⟩
          { status := 200, connection_close := true } <;>
        rw [had] at h <;> simp only [ExecResult.response.injEq] at h
      · exact absurd h (by simp)
      · subst h
        refine ⟨fun _ => ⟨_, _, had, rfl⟩, fun hfalse => ?_⟩
        simp [usesDefaultHeaders] at hfalse
  case flushExt =>
      simp only [executeR] at h
      cases had : addDefaultHeaders ctx
          ⟨.flushExt, cs, ch, ct, tp, bu, bl, so, sf, ri⟩
          { status := 200 } <;>
        rw [had] at h <;> simp only [ExecResult.response.injEq] at h
      · exact absurd h (by simp)
      · subst h
        refine ⟨fun _ => ⟨_, _, had, rfl⟩, fun hfalse => ?_⟩
        simp [usesDefaultHeaders] at hfalse
  case otherExtension =>
      simp only [executeR] at h
      exact absurd h (by simp)
  case describe =>
      simp only [executeR, ExecResult.response.injEq] at h
      subst h
      refine ⟨fun htrue => ?_, fun _ => rfl⟩
      simp [usesDefaultHeaders] at htrue
  case pause =>
      simp only [executeR, ExecResult.response.injEq] at h
      subst h
      refine ⟨fun htrue => ?_, fun _ => rfl⟩
      simp [usesDefaultHeaders] at htrue
  case play =>
      simp only [executeR, ExecResult.response.injEq] at h
      subst h
      refine ⟨fun htrue => ?_, fun _ => rfl⟩
      simp [usesDefaultHeaders] at htrue
  case playNotify =>
      simp only [executeR, ExecResult.response.injEq] at h
      subst h
      refine ⟨fun htrue => ?_, fun _ => rfl⟩
      simp [usesDefaultHeaders] at htrue
  case redirect =>
      simp only [executeR, ExecResult.response.injEq] at h
      subst h
      refine ⟨fun htrue => ?_, fun _ => rfl⟩
      simp [usesDefaultHeaders] at htrue

/-- C5 fails as stated: the claim quantifies over every request carrying
`Apple-Challenge`, but a DESCRIBE request with a challenge is answered by
the 405 Method Not Allowed branch, which skips `add_default_headers`, so the
response carries no `Apple-Response` header at all. -/
theorem C5_counterexample :
    executeR c5ctx c5creq = .response { status := 405 } ∧
    c5creq.apple_challenge = some "AAECAw" ∧
    ({ status := 405 } : RtspResponse).apple_response = none := by
  exact ⟨rfl, rfl, rfl⟩

/-- C5 amended: for every request carrying `Apple-Challenge` whose value
decodes (after stripping from the first `=` on) to bytes `chall`, every
response built through `add_default_headers` — i.e. from any branch other
than 405 Method Not Allowed and SET_PARAMETER with an unsupported content
type — carries an `Apple-Response` that is exactly the unpadded base64
encoding of the signature over
`chall ++ local IP octets ++ 6-byte hardware address`, and base64-decoding
it recovers the signature byte-for-byte; the two excluded branches emit
responses with no `Apple-Response` even when the request carries a
challenge.  The RSA-PKCS#1-v1.5 primitive is external crypto and enters as
the abstract signing function of the context. -/
theorem C5_apple_response (ctx : HandlerCtx) (req : RtspRequest)
    (r : RtspResponse) (chStr : String) (chall : List Nat)
    (hch : req.apple_challenge = some chStr)
    (hdec : decode_base64 chStr.toList = some chall)
    (hsig : ∀ b ∈ ctx.sign (chall ++ ctx.localIp ++ ctx.hwAddr), b < 256)
    (hresp : executeR ctx req = .response r) :
    (usesDefaultHeaders req = true →
      r.apple_response = some (String.mk
        (encode_base64 (ctx.sign (chall ++ ctx.localIp ++ ctx.hwAddr))))) ∧
    (usesDefaultHeaders req = false → r.apple_response = none) ∧
    decode_base64
        (encode_base64 (ctx.sign (chall ++ ctx.localIp ++ ctx.hwAddr))) =
      some (ctx.sign (chall ++ ctx.localIp ++ ctx.hwAddr)) := by
  obtain ⟨hroute, hnone⟩ := executeR_default_headers ctx req r hresp
  refine ⟨?_, hnone, decode_encode_base64 _ hsig⟩
  intro hu
  obtain ⟨r0, r1, hadd, heq⟩ := hroute hu
  rw [heq]
  exact addDefaultHeaders_apple_response ctx req r0 r1 chStr chall hch hdec
    hadd

/-- Witness for C5 (amended) with the spec's scenario data: an OPTIONS
request with challenge bytes `0..3` (base64 `AAECAw`), IPv4 `192.0.2.1`,
hardware address `3C 22 FB A5 A3 AD` (first six bytes of MD5("Airguitar")),
and the stub signature `[1, 2, 3]` encoding to `AQID`. -/
theorem C5_apple_response_witness :
    ({ status := 200, cseq := some "9", server := some "AirTunes/105.1",
       apple_response := some "AQID", has_public := true } :
      RtspResponse).apple_response = some "AQID" := by
  have h := (C5_apple_response c5ctx c5wreq
    { status := 200, cseq := some "9", server := some "AirTunes/105.1",
      apple_response := some "AQID", has_public := true }
    "AAECAw" [0, 1, 2, 3] rfl (by rfl) (by decide) (by rfl)).1 (by rfl)
  rw [h]
  decide
